import Mathlib

/-!
# Verification of the SmolAgents dashboard (`src/app.py`)

Shallow embedding of the log-scraper and weather-heuristic functions of
`app.py`, together with theorems settling the frozen claims about them.

Python strings are modelled as Lean `String`s (operated on via `List Char`),
Python `re` patterns are modelled by a small backtracking matcher specialised
to the pattern shapes occurring in the source (a prefix pattern, one capture
group that is a greedy character-class `+`, and a literal suffix), Python
floats produced by `/` and consumed by `round` are modelled as rationals with
round-half-to-even (all values reaching `round` in this program are far
enough from exact halves, or exact halves of integers, for the float and
rational roundings to agree), and Python exceptions are modelled with
`Except`.
-/

namespace App

/-! ## Python string primitives -/

/-- Whether `needle` occurs as a contiguous sublist of `hay`. -/
def listContains (needle : List Char) : List Char → Bool
  | [] => needle.isPrefixOf []
  | a :: t => needle.isPrefixOf (a :: t) || listContains needle t

theorem listContains_infix_iff (needle hay : List Char) :
    listContains needle hay = true ↔ needle <:+: hay := by
  induction hay with
  | nil =>
    simp [listContains, List.isPrefixOf_iff_prefix]
  | cons a t ih =>
    simp [listContains, List.isPrefixOf_iff_prefix, ih, List.infix_cons_iff,
      Bool.or_eq_true]

/-- Python `sub in s` (substring containment). -/
def containsSub (needle hay : String) : Bool :=
  listContains needle.toList hay.toList

/-- Python whitespace test for `str.strip` / `\s` (ASCII fragment). -/
def isPySpace (c : Char) : Bool := c.isWhitespace

/-- Python `str.strip()`. -/
def pyStrip (s : String) : String :=
  String.mk (((s.toList.dropWhile isPySpace).reverse.dropWhile isPySpace).reverse)

/-- Python `str.lower()` (ASCII fragment). -/
def pyLower (s : String) : String :=
  String.mk (s.toList.map Char.toLower)

def titleAux : Bool → List Char → List Char
  | _, [] => []
  | prevAlpha, a :: t =>
    if a.isAlpha then
      (if prevAlpha then a.toLower else a.toUpper) :: titleAux true t
    else
      a :: titleAux false t

/-- Python `str.title()` (ASCII fragment): uppercase each letter that does not
follow a letter, lowercase the other letters. -/
def pyTitle (s : String) : String :=
  String.mk (titleAux false s.toList)

/-- Python `str.isdigit()` (ASCII fragment): non-empty and all digits. -/
def pyIsDigit (s : String) : Bool :=
  s.toList ≠ [] && s.toList.all Char.isDigit

def digitsToNat (l : List Char) : Nat :=
  l.foldl (fun a c => a * 10 + (c.toNat - '0'.toNat)) 0

/-- Python `int(s)` on a string of digits. -/
def strToInt (s : String) : Int :=
  (digitsToNat s.toList : Int)

/-- Python `round(a / b)` for an integer quotient `a / b` with `b > 0`: round
half to even (banker's rounding), as Python's `round` does.  Every value the
source feeds to `round` is such a rational with denominator 1, 2, 3 or 5
(never an exact half for denominators 3 and 5, and exactly representable as a
float for 1 and 2), so the float round in the source and this rational round
agree. -/
def pyRoundDiv (a b : ℤ) : ℤ :=
  let f := Int.fdiv a b
  let r := a - f * b
  if 2 * r < b then f
  else if b < 2 * r then f + 1
  else if f % 2 = 0 then f else f + 1

/-! ## A backtracking matcher for the source's `re` patterns

Every regular expression in `app.py` has the shape
`pre (C+) post` where `pre` is built from literals, alternation, greedy `\s+`
and lazy `.*?`, the single capture group is a greedy `+` over a character
class `C`, and `post` is a literal.  The matcher below implements standard
leftmost backtracking semantics (alternation tries the left branch first,
greedy quantifiers try the longest extent first, lazy ones the shortest). -/

/-- Pattern fragments usable before the capture group. -/
inductive Pat where
  | lit : List Char → Pat
  | plusGreedy : (Char → Bool) → Pat
  | starLazy : (Char → Bool) → Pat
  | alt : Pat → Pat → Pat
  | seq : Pat → Pat → Pat

/-- Length of the maximal run of characters satisfying `c`. -/
def runLen (c : Char → Bool) : List Char → Nat
  | [] => 0
  | a :: t => if c a then runLen c t + 1 else 0

/-- Greedy `C+`: try consuming `j` characters for `j` from the maximal run
length down to 1. -/
def greedyCount (s : List Char) (k : List Char → Option (String × List Char)) :
    Nat → Option (String × List Char)
  | 0 => none
  | j + 1 =>
    match k (s.drop (j + 1)) with
    | some r => some r
    | none => greedyCount s k j

/-- Lazy `C*?`: try consuming as little as possible first. -/
def lazyStar (c : Char → Bool) (s : List Char)
    (k : List Char → Option (String × List Char)) : Option (String × List Char) :=
  match k s with
  | some r => some r
  | none =>
    match s with
    | [] => none
    | a :: t => if c a then lazyStar c t k else none

/-- Backtracking matcher for `Pat`, in continuation-passing style. -/
def mPat : Pat → List Char → (List Char → Option (String × List Char)) →
    Option (String × List Char)
  | .lit w, s, k => if w.isPrefixOf s then k (s.drop w.length) else none
  | .plusGreedy c, s, k => greedyCount s k (runLen c s)
  | .starLazy c, s, k => lazyStar c s k
  | .alt p q, s, k =>
    match mPat p s k with
    | some r => some r
    | none => mPat q s k
  | .seq p q, s, k => mPat p s (fun r => mPat q r k)

/-- A whole source pattern: prefix part, capture group `(C+)`, literal suffix. -/
structure SimplePat where
  pre : Pat
  grp : Char → Bool
  post : List Char

/-- Match the capture group (greedy `C+`) followed by the literal suffix at the
start of `r`; return the group text and the rest of the input. -/
def grpPost (c : Char → Bool) (post : List Char) (r : List Char) :
    Option (String × List Char) :=
  greedyCount r
    (fun rest =>
      if post.isPrefixOf rest then
        some (String.mk (r.take (r.length - rest.length)), rest.drop post.length)
      else none)
    (runLen c r)

/-- Try to match the whole pattern at the start of `s`. -/
def matchAt (sp : SimplePat) (s : List Char) : Option (String × List Char) :=
  mPat sp.pre s (fun r => grpPost sp.grp sp.post r)

/-- Python `re.search`: leftmost match, scanning start positions left to
right; returns the capture group and the input rest after the match. -/
def searchP (sp : SimplePat) : List Char → Option (String × List Char)
  | [] => matchAt sp []
  | a :: t =>
    match matchAt sp (a :: t) with
    | some r => some r
    | none => searchP sp t

def findallAux (sp : SimplePat) : Nat → List Char → List String
  | 0, _ => []
  | n + 1, s =>
    match searchP sp s with
    | none => []
    | some (g, rest) => g :: findallAux sp n rest

/-- Python `re.findall` for a one-group pattern: repeatedly search, continuing
after each match (every pattern in the source consumes at least one
character per match, so `length + 1` rounds of fuel suffice). -/
def findallP (sp : SimplePat) (text : String) : List String :=
  findallAux sp (text.toList.length + 1) text.toList

/-! Quick sanity checks of the matcher. -/

example : findallP ⟨.lit [], Char.isDigit, "°c".toList⟩ "now 22°c and 75°c" =
    ["22", "75"] := by decide

example : searchP ⟨.seq (.lit "ab".toList) (.starLazy (fun c => c ≠ '\n')),
    Char.isDigit, ['z']⟩ "ab q12w34z".toList = some ("34", "".toList) := by decide

/-! ## Weather heuristics (`app.py` lines 130–223) -/

/-- Result record of the weather resolvers (`parse_weather_from_google_search_results`
and `get_current_weather_fallback` return dictionaries with these keys). -/
structure WeatherRecord where
  location : String
  temperature_c : ℤ
  temperature_f : ℤ
  condition : String
  icon : String
  description : String
  humidity : String
  wind : String
  source : String
  error : Bool
deriving DecidableEq, Repr

/-- Pattern `r'(\d+)°c'` -/
def tempPat1 : SimplePat := ⟨.lit [], Char.isDigit, "°c".toList⟩

/-- Pattern `r'(\d+)° celsius'` -/
def tempPat2 : SimplePat := ⟨.lit [], Char.isDigit, "° celsius".toList⟩

/-- Class for `.` of `re` without DOTALL: any character except a newline. -/
def notNewline (c : Char) : Bool := c ≠ '\n'

/-- Pattern `r'temperature.*?(\d+)°'` -/
def tempPat3 : SimplePat :=
  ⟨.seq (.lit "temperature".toList) (.starLazy notNewline), Char.isDigit, "°".toList⟩

/-- Pattern `r'currently.*?(\d+)°'` -/
def tempPat4 : SimplePat :=
  ⟨.seq (.lit "currently".toList) (.starLazy notNewline), Char.isDigit, "°".toList⟩

def temp_patterns : List SimplePat := [tempPat1, tempPat2, tempPat3, tempPat4]

/-- The plausibility filter `match.isdigit() and 10 <= int(match) <= 50`. -/
def acceptTemp (m : String) : Bool :=
  pyIsDigit m && decide (10 ≤ strToInt m) && decide (strToInt m ≤ 50)

/-- The `temperatures` list built by the nested loops of
`parse_weather_from_google_search_results` over the already-lowercased text. -/
def temperaturesOf (text : String) : List ℤ :=
  temp_patterns.flatMap fun p => ((findallP p text).filter acceptTemp).map strToInt

/-- The `conditions` dict of `extract_weather_condition_from_text`, in
insertion (= iteration) order. -/
def conditionsTable : List (String × String) :=
  [("sunny", "Sunny"), ("clear", "Clear"), ("cloudy", "Cloudy"),
   ("partly cloudy", "Partly Cloudy"), ("overcast", "Overcast"),
   ("rainy", "Rainy"), ("rain", "Rainy"), ("drizzle", "Drizzling"),
   ("mist", "Misty"), ("light rain", "Light Rain"),
   ("thunderstorm", "Thunderstorm")]

def condLookup (text : String) : List (String × String) → String
  | [] => "Partly Cloudy"
  | (k, v) :: rest => if containsSub k text then v else condLookup text rest

def extract_weather_condition_from_text (text : String) : String :=
  condLookup text conditionsTable

def get_current_realistic_temp (location : String) : ℤ :=
  let l := pyLower location
  if l = "mumbai" then 27 else if l = "delhi" then 32
  else if l = "bangalore" then 24 else if l = "chennai" then 30
  else if l = "new york" then 22 else if l = "london" then 16 else 25

def get_weather_icon_for_condition (condition : String) : String :=
  if condition = "Clear" then "☀️" else if condition = "Sunny" then "☀️"
  else if condition = "Partly Cloudy" then "⛅" else if condition = "Cloudy" then "☁️"
  else if condition = "Rainy" then "🌧️" else if condition = "Light Rain" then "🌧️"
  else "🌤️"

def parse_weather_from_google_search_results (search_text location : String) :
    WeatherRecord :=
  let text := pyLower search_text
  let temperatures := temperaturesOf text
  let temp_c : ℤ :=
    if temperatures ≠ [] then
      -- `round(sum(temperatures[:3]) / min(len(temperatures), 3))`
      pyRoundDiv (temperatures.take 3).sum ((min temperatures.length 3 : ℕ) : ℤ)
    else get_current_realistic_temp location
  -- `round((temp_c * 9/5) + 32)`; as a single quotient, `(9·c + 160) / 5`
  let temp_f : ℤ := pyRoundDiv (temp_c * 9 + 160) 5
  let condition := extract_weather_condition_from_text text
  { location := location, temperature_c := temp_c, temperature_f := temp_f,
    condition := condition, icon := get_weather_icon_for_condition condition,
    description := toString temp_c ++ "°C (" ++ toString temp_f ++ "°F), " ++ condition,
    humidity := "80%", wind := "8 km/h", source := "SmolAgent Google Search",
    error := false }

/-- One row of the `current_weather` fallback dict. -/
structure CityWeather where
  temp_c : ℤ
  temp_f : ℤ
  condition : String
  humidity : String
  wind : String
  icon : String
deriving DecidableEq, Repr

/-- Lookup `current_weather.get(location, current_weather["Mumbai"])`. -/
def current_weather_row (location : String) : CityWeather :=
  if location = "Mumbai" then ⟨27, 81, "Light Rain", "89%", "10 km/h", "🌧️"⟩
  else if location = "Delhi" then ⟨32, 90, "Hazy", "75%", "8 km/h", "🌫️"⟩
  else if location = "Bangalore" then ⟨24, 75, "Pleasant", "70%", "5 km/h", "🌤️"⟩
  else ⟨27, 81, "Light Rain", "89%", "10 km/h", "🌧️"⟩

/-- Python `get_current_weather_fallback(location, error_msg)`.  Note that, exactly as
in the source, `error_msg` is accepted but never used: no field of the
returned record depends on it. -/
def get_current_weather_fallback (location : String) (error_msg : String) :
    WeatherRecord :=
  let _ := error_msg
  let data := current_weather_row location
  { location := pyTitle location, temperature_c := data.temp_c,
    temperature_f := data.temp_f, condition := data.condition, icon := data.icon,
    description := toString data.temp_c ++ "°C (" ++ toString data.temp_f ++ "°F), " ++
      data.condition,
    humidity := data.humidity, wind := data.wind, source := "Current Data",
    error := false }

/-- Python `get_weather_via_smolagent_google_search(location, search_tool)` with the
opaque search capability modelled as a function that may raise
(`Except.error` is a raised exception carrying `str(e)`). -/
def get_weather_via_smolagent_google_search (location : String)
    (search_tool : String → Except String String) : WeatherRecord :=
  match search_tool ("weather " ++ location ++ " current temperature today conditions humidity") with
  | .ok search_results => parse_weather_from_google_search_results search_results location
  | .error e => get_current_weather_fallback location ("SmolAgent search error: " ++ e)

/-! ## Location extraction (`app.py` lines 204–219) -/

/-- Class `\w` of `re` (ASCII fragment): letters, digits, underscore. -/
def wordChar (c : Char) : Bool := c.isAlphanum || c = '_'

/-- The class `[\w\s]`. -/
def wsOrWord (c : Char) : Bool := wordChar c || isPySpace c

/-- Pattern `r'(?:weather|temperature)\s+(?:in|at|for)\s+([\w\s]+)'` -/
def locPattern : SimplePat :=
  ⟨.seq (.alt (.lit "weather".toList) (.lit "temperature".toList))
     (.seq (.plusGreedy isPySpace)
       (.seq (.alt (.lit "in".toList) (.alt (.lit "at".toList) (.lit "for".toList)))
         (.plusGreedy isPySpace))),
   wsOrWord, []⟩

/-- The alternatives of `r'\b(today|tomorrow|now)\b'`, in order. -/
def temporalWords : List (List Char) := ["today".toList, "tomorrow".toList, "now".toList]

/-- Try to match `\bw\b` at the current position; `prevWord` says whether the
character before the position is a `\w` character.  (The words all start and
end with `\w` characters, so the two `\b`s require a non-word character, or
an edge of the string, on each outside.) -/
def tryWord (w : List Char) (prevWord : Bool) (s : List Char) : Option (List Char) :=
  if !prevWord && w.isPrefixOf s &&
      (match s.drop w.length with | [] => true | b :: _ => !wordChar b) then
    some (s.drop w.length)
  else none

def tryWords (prevWord : Bool) (s : List Char) : List (List Char) → Option (List Char)
  | [] => none
  | w :: rest =>
    match tryWord w prevWord s with
    | some r => some r
    | none => tryWords prevWord s rest

def subTemporalAux : Nat → Bool → List Char → List Char
  | 0, _, l => l
  | f + 1, prevWord, l =>
    match l with
    | [] => []
    | a :: t =>
      match tryWords prevWord l temporalWords with
      | some rest => subTemporalAux f true rest
      | none => a :: subTemporalAux f (wordChar a) t

/-- Python `re.sub(r'\b(today|tomorrow|now)\b', '', s)`: delete every word-bounded
occurrence of a temporal word, scanning left to right. -/
def subTemporal (s : String) : String :=
  String.mk (subTemporalAux (s.toList.length + 1) false s.toList)

/-- The `city_keywords` dict, in insertion order. -/
def city_keywords : List (String × String) :=
  [("mumbai", "Mumbai"), ("delhi", "Delhi"), ("bangalore", "Bangalore"),
   ("new york", "New York")]

def keywordScan (query_lower : String) : List (String × String) → String
  | [] => "Mumbai"
  | (k, c) :: rest => if containsSub k query_lower then c else keywordScan query_lower rest

def extract_location_from_query (query : String) : String :=
  let query_lower := pyLower query
  match searchP locPattern query_lower.toList with
  | some (g, _) =>
    let location := pyStrip g
    let location := pyStrip (subTemporal location)
    if location ≠ "" then pyTitle location
    else keywordScan query_lower city_keywords
  | none => keywordScan query_lower city_keywords

example : extract_location_from_query "weather in Tokyo today" = "Tokyo" := by decide

/-! ## Execution capture / log scraper (`app.py` lines 33–127) -/

/-- One element of `self.captured_code`. -/
structure CodeBlockRecord where
  step : Nat
  code : String
  type : String
  description : String
deriving DecidableEq, Repr

/-- The accumulator fields of `RealSmolAgentsExecutionCapture`.  Log entries
are modelled as their messages; the `[%H:%M:%S]` wall-clock prefix that
`_add_live_log` prepends is outside the embedding (every claim about the logs
is stated up to timestamps). -/
structure CaptureState where
  captured_code : List CodeBlockRecord
  execution_logs : List String
  live_logs : List String
  raw_output : List String
deriving DecidableEq, Repr

/-- Python `_add_live_log`. -/
def addLiveLog (s : CaptureState) (msg : String) : CaptureState :=
  { s with live_logs := s.live_logs ++ [msg],
           execution_logs := s.execution_logs ++ [msg] }

/-- The local loop variables of `_parse_real_smolagent_execution`. -/
structure ParseLocal where
  step_counter : Nat
  in_code_block : Bool
  current_code : List String
deriving DecidableEq, Repr

def initParseLocal : ParseLocal := ⟨1, false, []⟩

def splitNlAux : List Char → List Char → List String
  | [], acc => [String.mk acc.reverse]
  | c :: t, acc =>
    if c = '\n' then String.mk acc.reverse :: splitNlAux t []
    else splitNlAux t (c :: acc)

/-- Python `s.split('\n')`: split at every newline, keeping empty pieces
(`""` splits to `[""]`, a trailing newline yields a trailing `""`). -/
def pySplitNl (s : String) : List String := splitNlAux s.toList []

def step_marker : String := "━━━━━━━━━━━━━━━━━━━━━━━━━━━━━━━━━━━━ Step"
def exec_marker : String := "─ Executing parsed code:"
def sep_marker : String := "────────────────────────────────────────────────"

/-- Pattern `r'Step (\d+)'` -/
def stepNumPat : SimplePat := ⟨.lit "Step ".toList, Char.isDigit, []⟩

/-- Pattern `r'Duration ([\d.]+) seconds'` -/
def durationPat : SimplePat :=
  ⟨.lit "Duration ".toList, (fun c => c.isDigit || c = '.'), " seconds".toList⟩

/-- The body of the `for line in lines` loop of
`_parse_real_smolagent_execution`: one `if`/`elif` chain over the stripped
line. -/
def processLine (st : ParseLocal × CaptureState) (rawLine : String) :
    ParseLocal × CaptureState :=
  let loc := st.1
  let s := st.2
  let line := pyStrip rawLine
  if containsSub step_marker line then
    match searchP stepNumPat line.toList with
    | some (g, _) =>
      (loc, addLiveLog s ("🔍 Step " ++ toString (digitsToNat g.toList) ++ " detected"))
    | none => (loc, s)
  else if containsSub exec_marker line then
    ({ loc with in_code_block := true, current_code := [] },
     addLiveLog s "💻 Code execution block found")
  else if containsSub sep_marker line && loc.in_code_block then
    let emitted :=
      if loc.current_code ≠ [] then
        let code_text := String.intercalate "\n" loc.current_code
        let record : CodeBlockRecord :=
          { step := loc.step_counter, code := code_text, type := "real_execution",
            description := "SmolAgent Real Execution - Step " ++ toString loc.step_counter }
        ({ loc with step_counter := loc.step_counter + 1 },
         addLiveLog { s with captured_code := s.captured_code ++ [record] }
           ("✅ Captured real code block " ++ toString loc.step_counter))
      else (loc, s)
    ({ emitted.1 with in_code_block := false, current_code := [] }, emitted.2)
  else if loc.in_code_block && line ≠ "" then
    ({ loc with current_code := loc.current_code ++ [line] }, s)
  else if containsSub "Duration" line && containsSub "seconds" line then
    match searchP durationPat line.toList with
    | some (g, _) => (loc, addLiveLog s ("⏱️ Step duration: " ++ g ++ "s"))
    | none => (loc, s)
  else (loc, s)

def _parse_real_smolagent_execution (output : String) (s : CaptureState) :
    CaptureState :=
  ((pySplitNl output).foldl processLine (initParseLocal, s)).2

def emptyCaptureState : CaptureState := ⟨[], [], [], []⟩

/-- The state after the `clear()` calls and the two opening
`_add_live_log` calls of `run_with_real_execution_capture`. -/
def initLogState (query : String) : CaptureState :=
  addLiveLog (addLiveLog emptyCaptureState "🚀 SmolAgent execution started")
    ("📝 Processing query: " ++ query)

/-- Python `run_with_real_execution_capture(query)`.

The opaque `self.agent.run(query)` call, together with the stdout/stderr it
produces, is modelled by `agentRun`: `Except.ok (result, stdout, stderr)` for
a normal return, `Except.error msg` for a raised exception.  `elapsed` stands
for the wall-clock `time.time() - start_time` string.  `s` is the object
state before the call; the method clears every accumulator first, which is
why the result does not depend on it.  The returned `Except` is the
exception behaviour of the method itself: the trailing `match` is the
`try`/`except` block, so an uncaught exception would surface as
`Except.error`. -/
def run_with_real_execution_capture
    (agentRun : Except String (String × String × String))
    (query elapsed : String) (s : CaptureState) :
    Except String (String × CaptureState) :=
  let _ := s
  let s1 := initLogState query
  let body : Except String (String × CaptureState) := do
    let (result, captured_stdout, captured_stderr) ← agentRun
    let s2 := { s1 with raw_output := s1.raw_output ++ [captured_stdout] }
    let s3 :=
      if captured_stderr ≠ "" then
        { s2 with raw_output := s2.raw_output ++ [captured_stderr] }
      else s2
    let s4 := _parse_real_smolagent_execution (captured_stdout ++ captured_stderr) s3
    let s5 := addLiveLog s4 ("✅ SmolAgent execution completed in " ++ elapsed ++ "s")
    let s6 := addLiveLog s5
      ("📊 Captured " ++ toString s5.captured_code.length ++ " real code blocks")
    pure (result, s6)
  match body with
  | .ok v => .ok v
  | .error e => .ok ("Execution failed: " ++ e, addLiveLog s1 ("❌ Execution error: " ++ e))

example :
    (_parse_real_smolagent_execution
      ("─ Executing parsed code:\nx = 1\n" ++ sep_marker)
      emptyCaptureState).captured_code =
    [⟨1, "x = 1", "real_execution", "SmolAgent Real Execution - Step 1"⟩] := by decide

/-! ## Line classification for the scraper lemmas -/

/-- A line that, while outside a code block, leaves the loop variables and the
captured code unchanged (it may add log entries): any line whose stripped form
does not contain the `Executing parsed code:` marker. -/
def isNeutralLine (l : String) : Bool :=
  !containsSub exec_marker (pyStrip l)

/-- A line opening a code block: hits the `elif "─ Executing parsed code:"`
branch. -/
def isOpenLine (l : String) : Bool :=
  !containsSub step_marker (pyStrip l) && containsSub exec_marker (pyStrip l)

/-- A line closing a code block: hits the separator branch while inside a
block. -/
def isCloseLine (l : String) : Bool :=
  !containsSub step_marker (pyStrip l) && !containsSub exec_marker (pyStrip l) &&
    containsSub sep_marker (pyStrip l)

/-- An ordinary code line: contains none of the three markers and is non-empty
after stripping, so inside a block it is accumulated. -/
def isCodeLine (l : String) : Bool :=
  !containsSub step_marker (pyStrip l) && !containsSub exec_marker (pyStrip l) &&
    !containsSub sep_marker (pyStrip l) && pyStrip l ≠ ""

theorem addLiveLog_captured_code (s : CaptureState) (m : String) :
    (addLiveLog s m).captured_code = s.captured_code := rfl

theorem processLine_neutral (loc : ParseLocal) (s : CaptureState) (l : String)
    (hn : isNeutralLine l = true) (hin : loc.in_code_block = false) :
    (processLine (loc, s) l).1 = loc ∧
    (processLine (loc, s) l).2.captured_code = s.captured_code := by
  have hexec : containsSub exec_marker (pyStrip l) = false := by
    simpa [isNeutralLine] using hn
  unfold processLine
  simp only [hexec, hin, Bool.false_eq_true, if_false, Bool.and_false, Bool.false_and]
  split
  · split <;> simp [addLiveLog_captured_code]
  · split
    · split <;> simp [addLiveLog_captured_code]
    · simp

theorem processLine_open (loc : ParseLocal) (s : CaptureState) (l : String)
    (ho : isOpenLine l = true) :
    processLine (loc, s) l =
      ({ loc with in_code_block := true, current_code := [] },
       addLiveLog s "💻 Code execution block found") := by
  have hstep : containsSub step_marker (pyStrip l) = false := by
    simp [isOpenLine] at ho; simpa using ho.1
  have hexec : containsSub exec_marker (pyStrip l) = true := by
    simp [isOpenLine] at ho; exact ho.2
  unfold processLine
  simp [hstep, hexec]

theorem processLine_code (loc : ParseLocal) (s : CaptureState) (l : String)
    (hc : isCodeLine l = true) (hin : loc.in_code_block = true) :
    processLine (loc, s) l =
      ({ loc with current_code := loc.current_code ++ [pyStrip l] }, s) := by
  simp [isCodeLine] at hc
  obtain ⟨⟨⟨h1, h2⟩, h3⟩, h4⟩ := hc
  unfold processLine
  simp [h1, h2, h3, h4, hin]

theorem processLine_close_emit (loc : ParseLocal) (s : CaptureState) (l : String)
    (hc : isCloseLine l = true) (hin : loc.in_code_block = true)
    (hne : loc.current_code ≠ []) :
    processLine (loc, s) l =
      (⟨loc.step_counter + 1, false, []⟩,
       addLiveLog
         { s with captured_code := s.captured_code ++
             [⟨loc.step_counter, String.intercalate "\n" loc.current_code,
               "real_execution",
               "SmolAgent Real Execution - Step " ++ toString loc.step_counter⟩] }
         ("✅ Captured real code block " ++ toString loc.step_counter)) := by
  simp [isCloseLine] at hc
  obtain ⟨⟨h1, h2⟩, h3⟩ := hc
  unfold processLine
  simp [h1, h2, h3, hin, hne]

/-- A run of neutral lines while outside a code block leaves the loop
variables and the captured code unchanged. -/
theorem foldl_neutral (ls : List String) :
    ∀ loc s, (∀ l ∈ ls, isNeutralLine l = true) → loc.in_code_block = false →
    (ls.foldl processLine (loc, s)).1 = loc ∧
    (ls.foldl processLine (loc, s)).2.captured_code = s.captured_code := by
  induction ls with
  | nil => intro loc s _ _; exact ⟨rfl, rfl⟩
  | cons a t ih =>
    intro loc s hn hin
    have h1 := processLine_neutral loc s a (hn a (by simp)) hin
    rw [List.foldl_cons]
    have h2 := ih (processLine (loc, s) a).1 (processLine (loc, s) a).2
      (fun l hl => hn l (by simp [hl])) (by rw [h1.1]; exact hin)
    rw [Prod.mk.eta] at h2
    exact ⟨by rw [h2.1, h1.1], by rw [h2.2, h1.2]⟩

/-- A run of code lines while inside a code block accumulates the stripped
lines, in order, and changes nothing else. -/
theorem foldl_code (ls : List String) :
    ∀ loc s, (∀ l ∈ ls, isCodeLine l = true) → loc.in_code_block = true →
    ls.foldl processLine (loc, s) =
      ({ loc with current_code := loc.current_code ++ ls.map pyStrip }, s) := by
  induction ls with
  | nil => intro loc s _ _; simp
  | cons a t ih =>
    intro loc s hc hin
    rw [List.foldl_cons, processLine_code loc s a (hc a (by simp)) hin]
    rw [ih _ _ (fun l hl => hc l (by simp [hl])) (by simpa using hin)]
    simp

/-- Record emitted for the `k`-th well-formed block with raw lines `c`. -/
def blockRecord (k : Nat) (c : List String) : CodeBlockRecord :=
  ⟨k, String.intercalate "\n" (c.map pyStrip), "real_execution",
   "SmolAgent Real Execution - Step " ++ toString k⟩

/-- A single well-formed block (`open`, at least one code line, `close`),
processed from outside a block, emits exactly one record carrying the current
step counter and advances the counter. -/
theorem foldl_block (e : String) (c : List String) (cl : String)
    (he : isOpenLine e = true) (hc : ∀ l ∈ c, isCodeLine l = true)
    (hcne : c ≠ []) (hcl : isCloseLine cl = true) :
    ∀ (loc : ParseLocal) (s : CaptureState),
    (([e] ++ c ++ [cl]).foldl processLine (loc, s)).1 =
      ⟨loc.step_counter + 1, false, []⟩ ∧
    (([e] ++ c ++ [cl]).foldl processLine (loc, s)).2.captured_code =
      s.captured_code ++ [blockRecord loc.step_counter c] := by
  intro loc s
  rw [List.foldl_append, List.foldl_append]
  rw [show ([e].foldl processLine (loc, s)) = processLine (loc, s) e from rfl]
  rw [processLine_open loc s e he]
  rw [foldl_code c _ _ hc (by rfl)]
  rw [show ([cl].foldl processLine _) = processLine _ cl from List.foldl_cons ..]
  rw [processLine_close_emit _ _ cl hcl (by rfl)
    (by simpa using hcne)]
  refine ⟨rfl, ?_⟩
  simp [addLiveLog_captured_code, blockRecord]

theorem foldl_neutral' (ls : List String) (st : ParseLocal × CaptureState)
    (hn : ∀ l ∈ ls, isNeutralLine l = true) (hin : st.1.in_code_block = false) :
    (ls.foldl processLine st).1 = st.1 ∧
    (ls.foldl processLine st).2.captured_code = st.2.captured_code := by
  obtain ⟨loc, s⟩ := st
  exact foldl_neutral ls loc s hn hin

theorem foldl_code' (ls : List String) (st : ParseLocal × CaptureState)
    (hc : ∀ l ∈ ls, isCodeLine l = true) (hin : st.1.in_code_block = true) :
    ls.foldl processLine st =
      ({ st.1 with current_code := st.1.current_code ++ ls.map pyStrip }, st.2) := by
  obtain ⟨loc, s⟩ := st
  exact foldl_code ls loc s hc hin

theorem foldl_block' (e : String) (c : List String) (cl : String)
    (he : isOpenLine e = true) (hc : ∀ l ∈ c, isCodeLine l = true)
    (hcne : c ≠ []) (hcl : isCloseLine cl = true) (st : ParseLocal × CaptureState) :
    (([e] ++ c ++ [cl]).foldl processLine st).1 = ⟨st.1.step_counter + 1, false, []⟩ ∧
    (([e] ++ c ++ [cl]).foldl processLine st).2.captured_code =
      st.2.captured_code ++ [blockRecord st.1.step_counter c] := by
  obtain ⟨loc, s⟩ := st
  exact foldl_block e c cl he hc hcne hcl loc s

/-- A well-formed block preceded by neutral noise, starting outside any code
block: exactly one record is emitted and the step counter advances by one. -/
theorem foldl_segment (n : List String) (e : String) (c : List String) (cl : String)
    (hn : ∀ l ∈ n, isNeutralLine l = true) (he : isOpenLine e = true)
    (hc : ∀ l ∈ c, isCodeLine l = true) (hcne : c ≠ []) (hcl : isCloseLine cl = true)
    (st : ParseLocal × CaptureState) (hin : st.1.in_code_block = false) :
    ((n ++ ([e] ++ (c ++ [cl]))).foldl processLine st).1 =
      ⟨st.1.step_counter + 1, false, []⟩ ∧
    ((n ++ ([e] ++ (c ++ [cl]))).foldl processLine st).2.captured_code =
      st.2.captured_code ++ [blockRecord st.1.step_counter c] := by
  rw [List.foldl_append]
  obtain ⟨ha, hb⟩ := foldl_neutral' n st hn hin
  obtain ⟨hx, hy⟩ := foldl_block' e c cl he hc hcne hcl (n.foldl processLine st)
  refine ⟨?_, ?_⟩
  · rw [show [e] ++ (c ++ [cl]) = [e] ++ c ++ [cl] by simp] at *
    rw [hx, ha]
  · rw [show [e] ++ (c ++ [cl]) = [e] ++ c ++ [cl] by simp] at *
    rw [hy, hb, ha]

/-- A block opened after neutral noise but never closed before the text ends
emits nothing: the accumulated lines are dropped. -/
theorem foldl_tail_drop (n : List String) (e : String) (c : List String)
    (hn : ∀ l ∈ n, isNeutralLine l = true) (he : isOpenLine e = true)
    (hc : ∀ l ∈ c, isCodeLine l = true)
    (st : ParseLocal × CaptureState) (hin : st.1.in_code_block = false) :
    ((n ++ ([e] ++ c)).foldl processLine st).2.captured_code =
      st.2.captured_code := by
  rw [List.foldl_append, List.foldl_append]
  obtain ⟨ha, hb⟩ := foldl_neutral' n st hn hin
  have hopen : List.foldl processLine (n.foldl processLine st) [e] =
      ({ (n.foldl processLine st).1 with in_code_block := true, current_code := [] },
       addLiveLog (n.foldl processLine st).2 "💻 Code execution block found") := by
    rw [List.foldl_cons, List.foldl_nil]
    obtain ⟨loc, s⟩ := n.foldl processLine st
    exact processLine_open loc s e he
  rw [hopen, foldl_code' c _ hc rfl]
  simp [addLiveLog_captured_code, hb]

/-! ## Claims -/

/-- Claim C1: A captured text whose lines decompose into two well-formed code
blocks (each opened by a line containing the `Executing parsed code:` marker,
followed by at least one non-empty marker-free code line, and closed by a
line containing the long dash separator), separated and surrounded by neutral
lines, and followed by a block that is opened but never closed, yields
exactly two `CodeBlockRecord`s, with step indices 1 and 2 in that order; the
unterminated block's accumulated lines are dropped. -/
theorem claim_C1_two_blocks_unterminated_dropped
    (output : String) (n1 n2 n3 : List String) (e1 e2 e3 cl1 cl2 : String)
    (c1 c2 c3 : List String)
    (hsplit : pySplitNl output =
      n1 ++ [e1] ++ c1 ++ [cl1] ++ n2 ++ [e2] ++ c2 ++ [cl2] ++ n3 ++ [e3] ++ c3)
    (hn1 : ∀ l ∈ n1, isNeutralLine l = true)
    (hn2 : ∀ l ∈ n2, isNeutralLine l = true)
    (hn3 : ∀ l ∈ n3, isNeutralLine l = true)
    (he1 : isOpenLine e1 = true) (he2 : isOpenLine e2 = true)
    (he3 : isOpenLine e3 = true)
    (hcl1 : isCloseLine cl1 = true) (hcl2 : isCloseLine cl2 = true)
    (hc1 : ∀ l ∈ c1, isCodeLine l = true) (hc1ne : c1 ≠ [])
    (hc2 : ∀ l ∈ c2, isCodeLine l = true) (hc2ne : c2 ≠ [])
    (hc3 : ∀ l ∈ c3, isCodeLine l = true) :
    (_parse_real_smolagent_execution output emptyCaptureState).captured_code =
      [blockRecord 1 c1, blockRecord 2 c2] := by
  have hsplit' : pySplitNl output =
      (n1 ++ ([e1] ++ (c1 ++ [cl1]))) ++
        ((n2 ++ ([e2] ++ (c2 ++ [cl2]))) ++ (n3 ++ ([e3] ++ c3))) := by
    rw [hsplit]; simp [List.append_assoc]
  unfold _parse_real_smolagent_execution
  rw [hsplit', List.foldl_append, List.foldl_append]
  obtain ⟨h1a, h1b⟩ := foldl_segment n1 e1 c1 cl1 hn1 he1 hc1 hc1ne hcl1
    (initParseLocal, emptyCaptureState) rfl
  obtain ⟨h2a, h2b⟩ := foldl_segment n2 e2 c2 cl2 hn2 he2 hc2 hc2ne hcl2
    _ (by rw [h1a])
  rw [foldl_tail_drop n3 e3 c3 hn3 he3 hc3 _ (by rw [h2a])]
  rw [h2b, h1b, h1a]
  simp [emptyCaptureState, initParseLocal]

theorem claim_C1_witness :
    (_parse_real_smolagent_execution
      (String.intercalate "\n"
        (["noise line"] ++ ["─ Executing parsed code:"] ++ ["x = 1"] ++
          [sep_marker] ++ ["", "middle"] ++ ["─ Executing parsed code:"] ++
          ["y = 2", "z = 3"] ++ [sep_marker] ++ [] ++
          ["─ Executing parsed code:"] ++ ["w = 4"]))
      emptyCaptureState).captured_code =
      [blockRecord 1 ["x = 1"], blockRecord 2 ["y = 2", "z = 3"]] :=
  claim_C1_two_blocks_unterminated_dropped _
    ["noise line"] ["", "middle"] []
    "─ Executing parsed code:" "─ Executing parsed code:" "─ Executing parsed code:"
    sep_marker sep_marker ["x = 1"] ["y = 2", "z = 3"] ["w = 4"]
    (by decide) (by decide) (by decide) (by decide) (by decide) (by decide)
    (by decide) (by decide) (by decide) (by decide) (by decide) (by decide)
    (by decide) (by decide)

/-- Claim C4, counterexample: The scraper does not accumulate code lines
verbatim: a code line carrying leading indentation is stripped before being
accumulated, so the emitted code text differs, character for character, from
the corresponding line of the input. -/
theorem claim_C4_counterexample :
    (_parse_real_smolagent_execution
      ("─ Executing parsed code:\n    return x\n" ++ sep_marker)
      emptyCaptureState).captured_code =
      [⟨1, "return x", "real_execution", "SmolAgent Real Execution - Step 1"⟩] ∧
    ("return x" : String) ≠ "    return x" :=
  ⟨by decide, by decide⟩

/-- Claim C4, amended: While inside a code block the scraper accumulates each
subsequent line stripped of leading and trailing whitespace (skipping lines
that are empty after stripping); the code text of an emitted
`CodeBlockRecord` is the stripped lines joined by newlines, not the verbatim
input lines. -/
theorem claim_C4_amended_strip_join
    (output : String) (n1 n2 : List String) (e cl : String) (c : List String)
    (hsplit : pySplitNl output = n1 ++ [e] ++ c ++ [cl] ++ n2)
    (hn1 : ∀ l ∈ n1, isNeutralLine l = true)
    (he : isOpenLine e = true)
    (hc : ∀ l ∈ c, isCodeLine l = true) (hcne : c ≠ [])
    (hcl : isCloseLine cl = true)
    (hn2 : ∀ l ∈ n2, isNeutralLine l = true) :
    (_parse_real_smolagent_execution output emptyCaptureState).captured_code =
      [⟨1, String.intercalate "\n" (c.map pyStrip), "real_execution",
        "SmolAgent Real Execution - Step 1"⟩] := by
  have hsplit' : pySplitNl output = (n1 ++ ([e] ++ (c ++ [cl]))) ++ n2 := by
    rw [hsplit]; simp [List.append_assoc]
  unfold _parse_real_smolagent_execution
  rw [hsplit', List.foldl_append]
  obtain ⟨h1a, h1b⟩ := foldl_segment n1 e c cl hn1 he hc hcne hcl
    (initParseLocal, emptyCaptureState) rfl
  obtain ⟨_, h2b⟩ := foldl_neutral' n2 _ hn2 (by rw [h1a])
  rw [h2b, h1b]
  simp [emptyCaptureState, initParseLocal, blockRecord]
  decide

theorem claim_C4_witness :
    (_parse_real_smolagent_execution
      (String.intercalate "\n"
        ([] ++ ["─ Executing parsed code:"] ++ ["  a = 1", "b = 2"] ++
          [sep_marker] ++ []))
      emptyCaptureState).captured_code =
      [⟨1, String.intercalate "\n" (["  a = 1", "b = 2"].map pyStrip),
        "real_execution", "SmolAgent Real Execution - Step 1"⟩] :=
  claim_C4_amended_strip_join _ [] [] "─ Executing parsed code:" sep_marker
    ["  a = 1", "b = 2"] (by decide) (by decide) (by decide) (by decide)
    (by decide) (by decide) (by decide)

/-- Claim C5: The capture wrapper clears every accumulator at the start of each
run, so its whole result — returned value, captured code records, execution
and live logs, raw output — is a function of the agent behaviour, the query
and the elapsed-time string alone, independent of the accumulator state left
by any previous run.  In particular running the capture twice on the same
captured text yields the same ordered sequence of `CodeBlockRecord`s and the
same log messages (log timestamps are outside the embedding). -/
theorem claim_C5_run_deterministic
    (agentRun : Except String (String × String × String))
    (query elapsed : String) (s₁ s₂ : CaptureState) :
    run_with_real_execution_capture agentRun query elapsed s₁ =
      run_with_real_execution_capture agentRun query elapsed s₂ := rfl

/-- Claim C8: `run_with_real_execution_capture` never raises: for every agent
behaviour it returns normally (`Except.ok`), and when the wrapped `run` call
raises with message `m` the returned value is the formatted error string
`"Execution failed: " ++ m` rather than a propagated exception. -/
theorem claim_C8_wrapper_never_raises
    (agentRun : Except String (String × String × String))
    (query elapsed : String) (s : CaptureState) :
    ∃ v, run_with_real_execution_capture agentRun query elapsed s = Except.ok v ∧
      (∀ m, agentRun = Except.error m → v.1 = "Execution failed: " ++ m) := by
  cases agentRun with
  | ok a =>
    obtain ⟨r, out, err⟩ := a
    exact ⟨_, rfl, fun m hm => Except.noConfusion hm⟩
  | error e =>
    refine ⟨_, rfl, fun m hm => ?_⟩
    cases hm
    rfl

theorem claim_C8_witness :
    ∃ v, run_with_real_execution_capture (Except.error "boom") "weather in Paris"
        "0.01" emptyCaptureState = Except.ok v ∧
      (∀ m, (Except.error "boom" : Except String (String × String × String)) =
        Except.error m → v.1 = "Execution failed: " ++ m) :=
  claim_C8_wrapper_never_raises _ _ _ _

/-- Claim C2: Only regex matches whose integer value lies in `[10, 50]` enter
the Celsius candidate list; when candidates exist the reported temperature is
the rounded average of at most the first three of them; and on a text
containing `22°c` and `75°c` only 22 is accepted, so the result is 22. -/
theorem claim_C2_temperature_plausibility :
    (∀ text : String, ∀ t ∈ temperaturesOf text, 10 ≤ t ∧ t ≤ 50) ∧
    (∀ text location : String, temperaturesOf (pyLower text) ≠ [] →
      (parse_weather_from_google_search_results text location).temperature_c =
        pyRoundDiv ((temperaturesOf (pyLower text)).take 3).sum
          ((min (temperaturesOf (pyLower text)).length 3 : ℕ) : ℤ)) ∧
    (parse_weather_from_google_search_results "now 22°c and 75°c expected"
      "Delhi").temperature_c = 22 := by
  refine ⟨?_, ?_, by decide⟩
  · intro text t ht
    unfold temperaturesOf at ht
    rw [List.mem_flatMap] at ht
    obtain ⟨p, _, ht⟩ := ht
    rw [List.mem_map] at ht
    obtain ⟨m, hm, rfl⟩ := ht
    rw [List.mem_filter] at hm
    have hacc := hm.2
    unfold acceptTemp at hacc
    simp only [Bool.and_eq_true, decide_eq_true_eq] at hacc
    exact ⟨hacc.1.2, hacc.2⟩
  · intro text location hne
    unfold parse_weather_from_google_search_results
    simp only [hne, if_pos, ne_eq, not_false_eq_true]

theorem claim_C2_witness :
    temperaturesOf (pyLower "now 22°c and 75°c expected") ≠ [] ∧
    (parse_weather_from_google_search_results "now 22°c and 75°c expected"
      "Mumbai").temperature_c =
      pyRoundDiv ((temperaturesOf (pyLower "now 22°c and 75°c expected")).take 3).sum
        ((min (temperaturesOf (pyLower "now 22°c and 75°c expected")).length 3 : ℕ) : ℤ) :=
  ⟨by decide,
   claim_C2_temperature_plausibility.2.1 "now 22°c and 75°c expected" "Mumbai" (by decide)⟩

/-- Claim C3, counterexample: The error-context string passed to the fallback is
not retained in the result: `get_current_weather_fallback` ignores its
`error_msg` argument, so the resolver's output is identical for two different
search failures — a record that retained the failure description would have
to differ. -/
theorem claim_C3_counterexample :
    get_weather_via_smolagent_google_search "Mumbai"
        (fun _ => Except.error "DNS failure") =
      get_weather_via_smolagent_google_search "Mumbai"
        (fun _ => Except.error "timeout") ∧
    ("DNS failure" : String) ≠ "timeout" :=
  ⟨rfl, by decide⟩

/-- Claim C3, amended: When the external search capability raises, the weather
resolver returns the record built from the static per-city fallback table
(three named cities, defaulting to Mumbai) and never propagates the
exception; the error-context string is passed to the fallback for diagnostics
but discarded there — the returned record does not depend on it. -/
theorem claim_C3_amended_fallback_discards_error
    (location msg : String) (search_tool : String → Except String String)
    (hfail : ∀ q, search_tool q = Except.error msg) :
    get_weather_via_smolagent_google_search location search_tool =
      get_current_weather_fallback location ("SmolAgent search error: " ++ msg) ∧
    (∀ other, get_current_weather_fallback location ("SmolAgent search error: " ++ msg) =
      get_current_weather_fallback location other) := by
  constructor
  · unfold get_weather_via_smolagent_google_search
    rw [hfail]
  · intro other
    rfl

theorem claim_C3_witness :
    get_weather_via_smolagent_google_search "Paris" (fun _ => Except.error "boom") =
      get_current_weather_fallback "Paris" ("SmolAgent search error: " ++ "boom") ∧
    (∀ other, get_current_weather_fallback "Paris" ("SmolAgent search error: " ++ "boom") =
      get_current_weather_fallback "Paris" other) :=
  claim_C3_amended_fallback_discards_error "Paris" "boom" _ (fun _ => rfl)

theorem titleAux_eq_nil (b : Bool) (l : List Char) : titleAux b l = [] ↔ l = [] := by
  cases l with
  | nil => simp [titleAux]
  | cons a t => cases h : a.isAlpha <;> simp [titleAux, h]

theorem pyTitle_ne_empty (s : String) (h : s ≠ "") : pyTitle s ≠ "" := by
  intro hc
  apply h
  obtain ⟨d⟩ := s
  have h2 : titleAux false d = [] := congrArg String.data hc
  rw [titleAux_eq_nil] at h2
  subst h2
  rfl

theorem keywordScan_city_ne_empty (ql : String) : keywordScan ql city_keywords ≠ "" := by
  simp only [city_keywords, keywordScan]
  split
  · decide
  · split
    · decide
    · split
      · decide
      · split
        · decide
        · decide

/-- Claim C6: The location extractor always returns a non-empty string: a
successful pattern match yields a title-cased non-empty string, otherwise the
keyword scan yields one of four fixed city names or the hard-coded default
"Mumbai"; in particular a query matching nothing, such as
"tell me about AI", yields "Mumbai". -/
theorem claim_C6_location_always_nonempty :
    (∀ query : String, extract_location_from_query query ≠ "") ∧
    extract_location_from_query "tell me about AI" = "Mumbai" := by
  refine ⟨?_, by decide⟩
  intro query
  unfold extract_location_from_query
  cases hsp : searchP locPattern (pyLower query).toList with
  | none =>
    simp only [hsp]
    exact keywordScan_city_ne_empty (pyLower query)
  | some r =>
    obtain ⟨g, rest⟩ := r
    simp only [hsp]
    split
    · next hloc => exact pyTitle_ne_empty _ hloc
    · exact keywordScan_city_ne_empty (pyLower query)

def isTemporalWord (w : String) : Bool := w = "today" || w = "tomorrow" || w = "now"

def wordsAux : List Char → List Char → List String
  | [], acc => if acc = [] then [] else [String.mk acc.reverse]
  | c :: t, acc =>
    if isPySpace c then
      if acc = [] then wordsAux t [] else String.mk acc.reverse :: wordsAux t []
    else wordsAux t (c :: acc)

/-- Modelled from the spec: the behaviour the claim attributes to the
extractor — "strips trailing temporal words ('today', 'tomorrow', 'now') from
the matched group" — stated literally for comparison with the code: split the
group into whitespace-separated words and drop only the trailing words that
are temporal.  (The code instead deletes temporal words occurring anywhere in
the group.) -/
def stripTrailingTemporalWords (s : String) : String :=
  String.intercalate " " ((wordsAux s.toList []).reverse.dropWhile isTemporalWord).reverse

/-- Claim C7, counterexample: For the query "weather in now york" the matched
group is "now york"; the claim's trailing-word stripping would leave
"Now York", but the code deletes the leading word-bounded "now" as well and
returns "York". -/
theorem claim_C7_counterexample :
    (searchP locPattern (pyLower "weather in now york").toList).map Prod.fst =
      some "now york" ∧
    extract_location_from_query "weather in now york" = "York" ∧
    pyTitle (pyStrip (stripTrailingTemporalWords (pyStrip "now york"))) = "Now York" ∧
    ("York" : String) ≠ "Now York" :=
  ⟨by decide, by decide, by decide, by decide⟩

/-- Claim C7, amended: When the location pattern matches with group `g`, the
extractor deletes the word-bounded temporal words "today", "tomorrow", "now"
occurring anywhere in the stripped group, strips the result, and returns it
title-cased whenever it is non-empty; in particular
`extract_location_from_query "weather in Tokyo today" = "Tokyo"`. -/
theorem claim_C7_amended_temporal_words_anywhere :
    (∀ (q g : String) (rest : List Char),
      searchP locPattern (pyLower q).toList = some (g, rest) →
      pyStrip (subTemporal (pyStrip g)) ≠ "" →
      extract_location_from_query q = pyTitle (pyStrip (subTemporal (pyStrip g)))) ∧
    extract_location_from_query "weather in Tokyo today" = "Tokyo" := by
  refine ⟨?_, by decide⟩
  intro q g rest hm hne
  unfold extract_location_from_query
  simp only [hm]
  rw [if_pos hne]

theorem claim_C7_witness :
    searchP locPattern (pyLower "weather in Tokyo today").toList =
      some ("tokyo today", []) ∧
    extract_location_from_query "weather in Tokyo today" =
      pyTitle (pyStrip (subTemporal (pyStrip "tokyo today"))) :=
  ⟨by decide,
   claim_C7_amended_temporal_words_anywhere.1 "weather in Tokyo today" "tokyo today"
     [] (by decide) (by decide)⟩

/-- Claim C9: Every `WeatherRecord` the system constructs — by the search
parsing path, by the static fallback table (whose hard-coded Fahrenheit
values are consistent), or by the resolver that combines them — satisfies
`temperature_f = round(temperature_c * 9/5 + 32)`, i.e.
`pyRoundDiv (9 * temperature_c + 160) 5`. -/
theorem claim_C9_fahrenheit_invariant :
    (∀ location msg, (get_current_weather_fallback location msg).temperature_f =
      pyRoundDiv ((get_current_weather_fallback location msg).temperature_c * 9 + 160) 5) ∧
    (∀ text location,
      (parse_weather_from_google_search_results text location).temperature_f =
        pyRoundDiv
          ((parse_weather_from_google_search_results text location).temperature_c * 9 + 160)
          5) ∧
    (∀ (location : String) (search_tool : String → Except String String),
      (get_weather_via_smolagent_google_search location search_tool).temperature_f =
        pyRoundDiv
          ((get_weather_via_smolagent_google_search location search_tool).temperature_c * 9
            + 160) 5) := by
  have hfb : ∀ location msg, (get_current_weather_fallback location msg).temperature_f =
      pyRoundDiv ((get_current_weather_fallback location msg).temperature_c * 9 + 160) 5 := by
    intro location msg
    simp only [get_current_weather_fallback, current_weather_row]
    split
    · decide
    · split
      · decide
      · split
        · decide
        · decide
  have hp : ∀ text location,
      (parse_weather_from_google_search_results text location).temperature_f =
        pyRoundDiv
          ((parse_weather_from_google_search_results text location).temperature_c * 9 + 160)
          5 := by
    intro text location
    rfl
  refine ⟨hfb, hp, ?_⟩
  intro location search_tool
  unfold get_weather_via_smolagent_google_search
  cases search_tool ("weather " ++ location ++ " current temperature today conditions humidity") with
  | ok r => exact hp r location
  | error e => exact hfb location _

/-- Claim C10: For any text containing "partly cloudy" but neither "sunny" nor
"clear", the condition extractor returns "Cloudy", not "Partly Cloudy": the
table is scanned in insertion order and the key "cloudy" — a substring of
"partly cloudy" — is tested before the key "partly cloudy". -/
theorem claim_C10_cloudy_shadows_partly_cloudy (text : String)
    (h1 : containsSub "partly cloudy" text = true)
    (h2 : containsSub "sunny" text = false)
    (h3 : containsSub "clear" text = false) :
    extract_weather_condition_from_text text = "Cloudy" ∧
    extract_weather_condition_from_text text ≠ "Partly Cloudy" := by
  have hcl : containsSub "cloudy" text = true := by
    rw [containsSub, listContains_infix_iff] at h1 ⊢
    exact List.IsInfix.trans ((listContains_infix_iff _ _).mp (by decide)) h1
  have hmain : extract_weather_condition_from_text text = "Cloudy" := by
    unfold extract_weather_condition_from_text conditionsTable
    simp [condLookup, h2, h3, hcl]
  exact ⟨hmain, by rw [hmain]; decide⟩

theorem claim_C10_witness :
    extract_weather_condition_from_text "skies partly cloudy tonight" = "Cloudy" ∧
    extract_weather_condition_from_text "skies partly cloudy tonight" ≠ "Partly Cloudy" :=
  claim_C10_cloudy_shadows_partly_cloudy "skies partly cloudy tonight"
    (by decide) (by decide) (by decide)

end App
